import Mathlib

/-!
# Shallow embedding of the Run backend (Azure Functions, Python)

Each Azure Function handler in `src/backend/*/__init__.py` is translated to a
pure Lean function over an explicit `Store` (the four Azure Table Storage
tables plus the Users table).  Conventions of the embedding:

* JSON values are the inductive `JVal`; a handler's HTTP response is
  `HttpResponse` (status code plus JSON body), and the optional SignalR
  broadcast (`signalrMessages.set`) is an `Option SignalRMsg` result.
* Azure table rows become records; a table is a `List` of rows, and
  `query_entities` with a `PartitionKey eq` filter is `List.filter`, returning
  rows in stored order.
* `datetime.utcnow()` is a parameter `now : Int` (seconds).  ISO-8601
  timestamps of a fixed format compare lexicographically exactly as their
  instants compare, so the string comparisons in the code (`timestamp gt '…'`,
  `timestamp > …`) are embedded as `Int` comparisons.
* Python falsiness of request fields (`if not event_id`) collapses the two
  falsy cases (key absent ⇒ `None`, empty string) into `""`; numeric request
  fields use `0` as the falsy value, matching `not all([...])` on numbers.
* Store/transport faults raised by the Azure SDK are modelled by a parameter
  `fault : Option String`: `some d` means an unexpected exception with
  `str(e) = d` escapes to the handler's outermost `except Exception` block.
* `@require_auth` has passed (the claims are about post-auth behaviour); for
  `setEventReady`, which reads `req.user['username']`, the decoded token
  username is an explicit argument.
-/

inductive JVal where
  | s (v : String)
  | i (v : Int)
  | arr (vs : List JVal)
  | obj (fields : List (String × JVal))
  | null
  deriving Repr

structure HttpResponse where
  status : Nat
  body : JVal
  deriving Repr

structure SignalRMsg where
  target : String
  arguments : List JVal
  deriving Repr

/-- Row of the `Events` table (`PartitionKey = "Event"`, `RowKey = eventId`).
Fields are the ones written by `createEvent`; `trainerId` is optional (only
included when provided) and `startedAt` is stamped by `startEvent`. -/
structure EventRec where
  rowKey : String
  name : String
  timestamp : String
  status : String
  latitude : Int
  longitude : Int
  start_time : Int
  track_length : Int
  difficulty : String
  type : String
  trackId : Option String
  trainerId : Option String
  startedAt : Option Int
  deriving Repr, DecidableEq

/-- Row of the `RunnersInEvent` table: `PartitionKey = eventId`,
`RowKey = userId` (the registration ledger). -/
structure Registration where
  eventId : String
  userId : String
  joinedAt : Int
  deriving Repr, DecidableEq

/-- Row of the `ReadyUsers` table: `PartitionKey = eventId`, `RowKey = userId`. -/
structure ReadyMark where
  eventId : String
  userId : String
  readyAt : Int
  deriving Repr, DecidableEq

/-- Row of the `RunnerPositions` table: `PartitionKey = eventId`,
`RowKey = "{userId}_{iso}"`. -/
structure PositionSample where
  eventId : String
  rowKey : String
  userId : String
  latitude : Int
  longitude : Int
  altitude : Option Int
  speed : Int
  heading : Int
  distance : Int
  elapsedTime : Int
  timestamp : Int
  deriving Repr, DecidableEq

/-- The stored state: the Users table (only user ids matter to the claims),
the four event-domain tables, and whether the `RunnersInEvent` table exists
(`deleteEvent` consults `service.list_tables()` before touching it). -/
structure Store where
  users : List String
  events : List EventRec
  runners : List Registration
  readyMarks : List ReadyMark
  positions : List PositionSample
  runnersTableExists : Bool
  deriving Repr, DecidableEq

def findEvent (s : Store) (eventId : String) : Option EventRec :=
  s.events.find? (fun e => e.rowKey == eventId)

def findRunner (s : Store) (eventId userId : String) : Option Registration :=
  s.runners.find? (fun r => r.eventId == eventId && r.userId == userId)

def findReadyMark (s : Store) (eventId userId : String) : Option ReadyMark :=
  s.readyMarks.find? (fun m => m.eventId == eventId && m.userId == userId)

/-- `except Exception as e:` block shared verbatim by most handlers:
`{"error": "something went wrong", "details": str(e)}`, HTTP 500. -/
def internalError (detail : String) : HttpResponse :=
  ⟨500, .obj [("error", .s "something went wrong"), ("details", .s detail)]⟩

/-- `deleteEvent`'s variant spells the message with a capital S. -/
def internalErrorCap (detail : String) : HttpResponse :=
  ⟨500, .obj [("error", .s "Something went wrong"), ("details", .s detail)]⟩

def badRequest (msg : String) : HttpResponse :=
  ⟨400, .obj [("error", .s msg)]⟩

def notFound (msg : String) : HttpResponse :=
  ⟨404, .obj [("error", .s msg)]⟩

def conflict (msg : String) : HttpResponse :=
  ⟨409, .obj [("error", .s msg)]⟩

def forbidden (msg : String) : HttpResponse :=
  ⟨403, .obj [("error", .s msg)]⟩

/-! ## joinEvent (`src/backend/joinEvent/__init__.py`) -/

/-- `joinEvent`: validates ids, checks the user exists in `Users`, checks the
event exists and is `open`, then conditionally inserts into `RunnersInEvent`;
`ResourceExistsError` is translated into a 200 success without a broadcast. -/
def joinEvent (eventId userId : String) (fault : Option String) (now : Int)
    (s : Store) : HttpResponse × Store × Option SignalRMsg :=
  match fault with
  | some d => (internalError d, s, none)
  | none =>
    if eventId = "" ∨ userId = "" then
      (badRequest "missing eventId or userId", s, none)
    else if userId ∉ s.users then
      (notFound ("user " ++ userId ++ " not found"), s, none)
    else
      match findEvent s eventId with
      | none => (notFound ("event " ++ eventId ++ " not found"), s, none)
      | some evt =>
        if evt.status ≠ "open" then
          (conflict "event is not open", s, none)
        else
          match findRunner s eventId userId with
          | some _ =>
            (⟨200, .obj [("message", .s "user already joined"),
                         ("eventId", .s eventId), ("userId", .s userId)]⟩,
             s, none)
          | none =>
            let reg : Registration := ⟨eventId, userId, now⟩
            (⟨201, .obj [("message", .s "user joined event"),
                         ("eventId", .s eventId), ("userId", .s userId)]⟩,
             { s with runners := s.runners ++ [reg] },
             some ⟨"updateEvent", [.obj [("eventId", .s eventId)]]⟩)

/-! ## markUserReady (`src/backend/markUserReady/__init__.py`) -/

/-- `markUserReady`: event must exist with `status = 'ready'` (409 otherwise,
404 when absent), the user must hold a Registration (403 otherwise); then the
ReadyMark is inserted conditionally, `ResourceExistsError` becoming a 200
success.  The function binds no SignalR output. -/
def markUserReady (eventId userId : String) (fault : Option String) (now : Int)
    (s : Store) : HttpResponse × Store :=
  match fault with
  | some d => (internalError d, s)
  | none =>
    if eventId = "" ∨ userId = "" then
      (badRequest "missing eventId or userId", s)
    else
      match findEvent s eventId with
      | none => (notFound ("event " ++ eventId ++ " not found"), s)
      | some evt =>
        if evt.status ≠ "ready" then
          (conflict "event is not in ready state", s)
        else
          match findRunner s eventId userId with
          | none => (forbidden "user is not registered for this event", s)
          | some _ =>
            match findReadyMark s eventId userId with
            | some _ =>
              (⟨200, .obj [("message", .s "user already marked as ready"),
                           ("eventId", .s eventId), ("userId", .s userId)]⟩, s)
            | none =>
              (⟨201, .obj [("message", .s "user marked as ready"),
                           ("eventId", .s eventId), ("userId", .s userId)]⟩,
               { s with readyMarks := s.readyMarks ++ [⟨eventId, userId, now⟩] })

/-! ## setEventReady (`src/backend/setEventReady/__init__.py`) -/

/-- `setEventReady`: the requester is `req.user['username']` from the decoded
token (`authUsername`); the host check `event.get('trainerId') != user_id`
compares the optional stored `trainerId` with it, before any status check.
On success sets `status = 'ready'` and broadcasts `eventStatusChanged`. -/
def setEventReady (eventId : String) (authUsername : Option String)
    (fault : Option String) (s : Store) :
    HttpResponse × Store × Option SignalRMsg :=
  match fault with
  | some d => (internalError d, s, none)
  | none =>
    if eventId = "" then
      (badRequest "missing eventId", s, none)
    else
      match findEvent s eventId with
      | none => (notFound ("event " ++ eventId ++ " not found"), s, none)
      | some evt =>
        if evt.trainerId ≠ authUsername then
          (forbidden "only the host can set event to ready", s, none)
        else
          let evt' := { evt with status := "ready" }
          (⟨200, .obj [("message", .s "event set to ready"),
                       ("eventId", .s eventId), ("status", .s "ready")]⟩,
           { s with events :=
               s.events.map (fun e => if e.rowKey == eventId then evt' else e) },
           some ⟨"eventStatusChanged", [.obj [("eventId", .s eventId)]]⟩)

/-! ## startEvent (`src/backend/startEvent/__init__.py`) -/

/-- Ready-mark user ids for an event, in table order:
`[user['RowKey'] for user in ready_users]`. -/
def readyIdsOf (s : Store) (eventId : String) : List String :=
  (s.readyMarks.filter (fun m => m.eventId == eventId)).map (·.userId)

/-- Registered user ids for an event, in table order:
`[user['RowKey'] for user in registered_users]`. -/
def registeredIdsOf (s : Store) (eventId : String) : List String :=
  (s.runners.filter (fun r => r.eventId == eventId)).map (·.userId)

/-- `startEvent`: the status check (`409` unless `'ready'`) precedes the host
check (`403`); `event['trainerId']` is a bracket access, so a missing
`trainerId` raises `KeyError` into the outer handler.  The ready set is the
ReadyUsers partition plus the host; registrations outside it are deleted; the
event is stamped `startedAt` (the `status = 'started'` line is commented out
in the source) and `eventStarted` is broadcast. -/
def startEvent (eventId userId : String) (fault : Option String) (now : Int)
    (s : Store) : HttpResponse × Store × Option SignalRMsg :=
  match fault with
  | some d => (internalError d, s, none)
  | none =>
    if eventId = "" ∨ userId = "" then
      (badRequest "missing eventId or userId", s, none)
    else
      match findEvent s eventId with
      | none => (notFound ("event " ++ eventId ++ " not found"), s, none)
      | some evt =>
        if evt.status ≠ "ready" then
          (conflict "event is not in ready state", s, none)
        else
          match evt.trainerId with
          | none => (internalError "'trainerId'", s, none)
          | some host =>
            if host ≠ userId then
              (forbidden "only the host can start the event", s, none)
            else
              let readyIds := readyIdsOf s eventId
              let readyIds' :=
                if userId ∈ readyIds then readyIds else readyIds ++ [userId]
              let registeredIds := registeredIdsOf s eventId
              let usersToRemove := registeredIds.filter (· ∉ readyIds')
              let runners' := s.runners.filter
                (fun r => r.eventId ≠ eventId ∨ r.userId ∈ readyIds')
              let evt' := { evt with startedAt := some now }
              let payload : JVal := .obj
                [("eventId", .s eventId), ("status", .s "started"),
                 ("startedAt", .i now),
                 ("readyUsers", .arr (readyIds'.map .s)),
                 ("trackId", evt.trackId.elim JVal.null JVal.s),
                 ("removedUsers", .arr (usersToRemove.map .s))]
              (⟨200, .obj
                 [("message", .s "event started"), ("eventId", .s eventId),
                  ("status", .s "started"), ("startedAt", .i now),
                  ("readyUsers", .arr (readyIds'.map .s)),
                  ("removedUsers", .arr (usersToRemove.map .s))]⟩,
               { s with
                   runners := runners',
                   events :=
                     s.events.map (fun e => if e.rowKey == eventId then evt' else e) },
               some ⟨"eventStarted", [payload]⟩)

/-! ## deleteEvent (`src/backend/deleteEvent/__init__.py`) -/

/-- `deleteEvent`: fetch-then-delete the Event (absence only sets
`event_deleted = False`); then, when the `RunnersInEvent` table exists, delete
every row of the event's partition — this and the `eventDeleted` broadcast
happen on the not-found path too, before the 404 is returned.  ReadyUsers and
RunnerPositions are never touched. -/
def deleteEvent (eventId : String) (fault : Option String) (s : Store) :
    HttpResponse × Store × Option SignalRMsg :=
  match fault with
  | some d => (internalErrorCap d, s, none)
  | none =>
    if eventId = "" then
      (badRequest "missing eventId", s, none)
    else
      let eventDeleted := (findEvent s eventId).isSome
      let events' := s.events.filter (fun e => e.rowKey ≠ eventId)
      let runners' :=
        if s.runnersTableExists then
          s.runners.filter (fun r => r.eventId ≠ eventId)
        else s.runners
      let s' := { s with events := events', runners := runners' }
      let msg : SignalRMsg := ⟨"eventDeleted", [.s eventId]⟩
      if eventDeleted then
        (⟨200, .obj [("message", .s "event deleted"), ("eventId", .s eventId)]⟩,
         s', some msg)
      else
        (⟨404, .obj [("error", .s "event not found"), ("eventId", .s eventId)]⟩,
         s', some msg)

/-! ## getEventRegisteredUsers (`src/backend/getEventRegisteredUsers/__init__.py`) -/

/-- `getEventRegisteredUsers`: 404 when the event is absent; otherwise maps
the `RunnersInEvent` partition through the Users table (rows whose user is
missing from Users are skipped with a warning). -/
def getEventRegisteredUsers (eventId : String) (fault : Option String)
    (s : Store) : HttpResponse :=
  match fault with
  | some d => internalError d
  | none =>
    if eventId = "" then badRequest "missing eventId"
    else
      match findEvent s eventId with
      | none => notFound ("Event with id " ++ eventId ++ " not found")
      | some _ =>
        let ids := (s.runners.filter (fun r => r.eventId == eventId)).map (·.userId)
        ⟨200, .arr ((ids.filter (· ∈ s.users)).map
          (fun u => .obj [("userId", .s u)]))⟩

/-! ## updateRunnerPosition (`src/backend/updateRunnerPosition/__init__.py`) -/

/-- `updateRunnerPosition`: after the falsiness check on
`[event_id, user_id, latitude, longitude]` (so latitude/longitude `0` are
rejected as missing), the sample is appended to `RunnerPositions` and
`runnerPositionUpdate` is broadcast — with no lookup of the Events table. -/
def updateRunnerPosition (eventId userId : String) (latitude longitude : Int)
    (altitude : Option Int) (speed heading distance elapsedTime : Int)
    (fault : Option String) (now : Int) (s : Store) :
    HttpResponse × Store × Option SignalRMsg :=
  match fault with
  | some d => (internalError d, s, none)
  | none =>
    if eventId = "" ∨ userId = "" ∨ latitude = 0 ∨ longitude = 0 then
      (badRequest "missing required fields: eventId, userId, latitude, longitude",
       s, none)
    else
      let sample : PositionSample :=
        ⟨eventId, userId ++ "_" ++ toString now, userId, latitude, longitude,
         altitude, speed, heading, distance, elapsedTime, now⟩
      (⟨200, .obj [("message", .s "position updated")]⟩,
       { s with positions := s.positions ++ [sample] },
       some ⟨"runnerPositionUpdate",
         [.obj [("eventId", .s eventId), ("userId", .s userId),
                ("latitude", .i latitude), ("longitude", .i longitude),
                ("altitude", altitude.elim JVal.null JVal.i),
                ("speed", .i speed), ("heading", .i heading),
                ("distance", .i distance), ("elapsedTime", .i elapsedTime),
                ("timestamp", .i now)]]⟩)

/-! ## getEventRunnersPositions (`src/backend/getEventRunnersPositions/__init__.py`) -/

/-- The per-runner dict built inside the loop (altitude is not included). -/
structure RunnerPosEntry where
  userId : String
  latitude : Int
  longitude : Int
  speed : Int
  heading : Int
  distance : Int
  elapsedTime : Int
  timestamp : Int
  deriving Repr, DecidableEq

def mkEntry (p : PositionSample) : RunnerPosEntry :=
  ⟨p.userId, p.latitude, p.longitude, p.speed, p.heading, p.distance,
   p.elapsedTime, p.timestamp⟩

/-- One step of the loop body over `runner_positions` (a Python dict keyed by
`userId`, iteration order = insertion order): a new user is appended, an
existing user's entry is replaced in place when the new timestamp is strictly
greater. -/
def latestStep (acc : List RunnerPosEntry) (p : PositionSample) :
    List RunnerPosEntry :=
  match acc.find? (fun e => e.userId == p.userId) with
  | none => acc ++ [mkEntry p]
  | some e =>
    if p.timestamp > e.timestamp then
      acc.map (fun e' => if e'.userId == p.userId then mkEntry p else e')
    else acc

def reduceLatest (ps : List PositionSample) : List RunnerPosEntry :=
  ps.foldl latestStep []

/-- The table filter: `PartitionKey eq eventId and timestamp gt now-5min`
(strictly greater; the window is hard-coded to five minutes = 300 s). -/
def freshSamples (s : Store) (eventId : String) (now : Int) :
    List PositionSample :=
  s.positions.filter (fun p => p.eventId == eventId && p.timestamp > now - 300)

def entryToJson (e : RunnerPosEntry) : JVal :=
  .obj [("userId", .s e.userId), ("latitude", .i e.latitude),
        ("longitude", .i e.longitude), ("speed", .i e.speed),
        ("heading", .i e.heading), ("distance", .i e.distance),
        ("elapsedTime", .i e.elapsedTime), ("timestamp", .i e.timestamp)]

/-- `getEventRunnersPositions`: filters the last five minutes of the event's
partition and reduces to the most recent sample per user. -/
def getEventRunnersPositions (eventId : String) (fault : Option String)
    (now : Int) (s : Store) : HttpResponse :=
  match fault with
  | some d => internalError d
  | none =>
    if eventId = "" then badRequest "missing eventId parameter"
    else
      ⟨200, .arr ((reduceLatest (freshSamples s eventId now)).map entryToJson)⟩

/-! ## createEvent (`src/backend/createEvent/__init__.py`) -/

/-- Request body of `createEvent`; `""`/`0` stand for absent-or-falsy required
fields, optional fields are `Option` (`none` ⇒ the `.get` default applies). -/
structure CreateEventReq where
  timestamp : String
  trainerId : Option String
  status : Option String
  latitude : Int
  longitude : Int
  start_time : Int
  track_length : Int
  difficulty : Option String
  type : Option String
  name : Option String
  trackId : Option String
  deriving Repr, DecidableEq

/-- The default argument of `req_body.get("name", f"Event {event_id}")` at
line 24 of `createEvent`: an f-string over the local `event_id`, which Python
evaluates eagerly before `.get` consults the key.  `env` is the binding of
`event_id` at that point; an unbound name raises `NameError`. -/
def eventNameDefault (env : Option String) : Except String String :=
  match env with
  | none => .error "name 'event_id' is not defined"
  | some eid => .ok ("Event " ++ eid)

/-- `createEvent`: line 24 evaluates `f"Event {event_id}"` while `event_id` is
only assigned at line 42, so the handler body raises `NameError` before any
validation; the outer `except` turns it into a 500.  The never-reached
continuation (validation, entity insert, `addEvent` broadcast, 201) is
embedded after the raise for completeness; `newId` is the `uuid4` draw. -/
def createEvent (req : CreateEventReq) (fault : Option String) (newId : String)
    (s : Store) : HttpResponse × Store × Option SignalRMsg :=
  match fault with
  | some d => (internalError d, s, none)
  | none =>
    match eventNameDefault none with
    | .error e => (internalError e, s, none)
    | .ok defaultName =>
      let eventName := req.name.getD defaultName
      if req.timestamp = "" then
        (badRequest "missing timestamp", s, none)
      else if req.latitude = 0 ∨ req.longitude = 0 then
        (badRequest "missing latitude or longitude", s, none)
      else
        let entity : EventRec :=
          ⟨newId, eventName, req.timestamp, req.status.getD "open",
           req.latitude, req.longitude, req.start_time, req.track_length,
           req.difficulty.getD "beginner", req.type.getD "street",
           req.trackId, req.trainerId, none⟩
        (⟨201, .obj [("RowKey", .s newId), ("name", .s entity.name),
                     ("status", .s entity.status)]⟩,
         { s with events := s.events ++ [entity] },
         some ⟨"addEvent", [.obj [("RowKey", .s newId)]]⟩)

/-! ## Concrete stores used by witnesses and counterexamples -/

def emptyStore : Store := ⟨[], [], [], [], [], true⟩

/-- An `open` event `e1` hosted by `host`, with `bob` a known non-host user. -/
def openEvt : EventRec :=
  ⟨"e1", "Morning Run", "2024-01-01T10:00:00", "open", 32, 34, 0, 0,
   "beginner", "street", none, some "host", none⟩

def openStore : Store := ⟨["host", "bob"], [openEvt], [], [], [], true⟩

/-- The start-pruning scenario of the spec: event `e1` in status `ready`
hosted by `H` (not itself registered), registrations `{A,B,C}`, ready
marks `{B}`. -/
def readyEvt : EventRec :=
  ⟨"e1", "Morning Run", "2024-01-01T10:00:00", "ready", 32, 34, 0, 0,
   "beginner", "street", none, some "H", none⟩

def pruneStore : Store :=
  ⟨["H", "A", "B", "C"], [readyEvt],
   [⟨"e1", "A", 1⟩, ⟨"e1", "B", 2⟩, ⟨"e1", "C", 3⟩],
   [⟨"e1", "B", 4⟩], [], true⟩

/-- A store whose `RunnersInEvent` partition for the absent event `e1` still
holds an orphan registration (and an orphan ready mark). -/
def orphanStore : Store :=
  ⟨["A"], [], [⟨"e1", "A", 0⟩], [⟨"e1", "A", 1⟩], [], true⟩

/-- An existing event `e1` with registrations `{A,B}`, a ready mark and a
position sample, for the cascade-delete scenario. -/
def cascadeStore : Store :=
  ⟨["A", "B"], [openEvt], [⟨"e1", "A", 1⟩, ⟨"e1", "B", 2⟩],
   [⟨"e1", "A", 3⟩], [⟨"e1", "A_4", "A", 1, 2, none, 0, 0, 0, 0, 4⟩], true⟩

/-- One sample for `u1` sitting exactly on the freshness boundary
(`timestamp = now - 300` when evaluated at `now = 300`). -/
def boundaryStore : Store :=
  ⟨["u1"], [], [], [],
   [⟨"e1", "u1_0", "u1", 1, 2, none, 0, 0, 0, 0, 0⟩], true⟩

/-- Samples for the freshness reduction at `now = 500`: `u1` at `490` and
`480` (both fresh), `u2` only at `100` (stale). -/
def freshStore : Store :=
  ⟨["u1", "u2"], [], [], [],
   [⟨"e1", "u1_480", "u1", 1, 2, none, 0, 0, 0, 0, 480⟩,
    ⟨"e1", "u1_490", "u1", 3, 4, none, 0, 0, 0, 0, 490⟩,
    ⟨"e1", "u2_100", "u2", 5, 6, none, 0, 0, 0, 0, 100⟩], true⟩

/-- A `ready` event `e1` hosted by `host` with `runner` registered. -/
def readyHostEvt : EventRec :=
  ⟨"e1", "Morning Run", "2024-01-01T10:00:00", "ready", 32, 34, 0, 0,
   "beginner", "street", none, some "host", none⟩

def markReadyStore : Store :=
  ⟨["host", "runner"], [readyHostEvt], [⟨"e1", "runner", 1⟩], [], [], true⟩

/-- The ready set `startEvent` acts on: the ReadyUsers partition of the
event, with the host appended when not already marked (the `readyIds'`
local of `startEvent`). -/
def readySetOf (s : Store) (e h : String) : List String :=
  if h ∈ readyIdsOf s e then readyIdsOf s e else readyIdsOf s e ++ [h]

/-- The `users_to_remove` list of `startEvent`: registered users outside the
ready set. -/
def removedOf (s : Store) (e h : String) : List String :=
  (registeredIdsOf s e).filter (· ∉ readySetOf s e h)

/-- Number of Registration rows for `(e, u)` in the ledger. -/
def regCount (s : Store) (e u : String) : Nat :=
  s.runners.countP (fun r => r.eventId == e && r.userId == u)

/-- Number of ReadyMark rows for `(e, u)`. -/
def readyCount (s : Store) (e u : String) : Nat :=
  s.readyMarks.countP (fun m => m.eventId == e && m.userId == u)

/-- Known user `u1` and the open event `e1`, not yet joined. -/
def joinStore : Store := ⟨["u1", "host"], [openEvt], [], [], [], true⟩

/-! ## C1: createEvent -/

/-- C1 (code bug): `createEvent` never reaches validation or the insert: the
default argument `f"Event {event_id}"` at line 24 is evaluated before
`event_id` is assigned (line 42), so every request — including well-formed
ones — ends in the `except` block with a 500, never a 201/`open` event. -/
theorem createEvent_always_internal_error (req : CreateEventReq) (newId : String)
    (s : Store) :
    createEvent req none newId s =
      (internalError "name 'event_id' is not defined", s, none) := rfl

/-! ## C10: joinEvent checks the user before the event -/

/-- C10: with both ids present, `joinEvent` for a user missing from the Users
table returns 404 about the user and leaves the store untouched — before any
event lookup, so this is the response even when the event is also unknown. -/
theorem joinEvent_unknown_user (e u : String) (now : Int) (s : Store)
    (he : e ≠ "") (hu : u ≠ "") (husr : u ∉ s.users) :
    joinEvent e u none now s =
      (notFound ("user " ++ u ++ " not found"), s, none) := by
  simp [joinEvent, he, hu, husr]

/-- C10 witness: unknown user `ghost` and unknown event `e1` (the store is
empty): the 404 is about the user. -/
theorem joinEvent_unknown_user_witness :
    (("e1" : String) ≠ "" ∧ ("ghost" : String) ≠ "" ∧
      "ghost" ∉ emptyStore.users ∧ findEvent emptyStore "e1" = none) ∧
    joinEvent "e1" "ghost" none 0 emptyStore =
      (notFound "user ghost not found", emptyStore, none) := by
  refine ⟨⟨by decide, by decide, by simp [emptyStore], by simp [emptyStore, findEvent]⟩, ?_⟩
  exact joinEvent_unknown_user "e1" "ghost" 0 emptyStore (by decide) (by decide)
    (by simp [emptyStore])

/-! ## C7: fault surfacing -/

/-- C7 counterexample: a store fault with text `boom` caught by `joinEvent`'s
outer `except` produces a body that carries the full detail in its
`details` field — the detail is not confined to server-side logs. -/
theorem fault_detail_leaks_into_body :
    (joinEvent "e1" "u1" (some "boom") 0 emptyStore).1 =
      ⟨500, .obj [("error", .s "something went wrong"),
                  ("details", .s "boom")]⟩ := rfl

/-- C7 (amended): every handler turns an escaping fault into an HTTP 500
whose body has the generic message *and* a `details` field with `str(e)`
(`deleteEvent` capitalises the message); the store is unchanged and nothing
is broadcast. -/
theorem fault_surfaced_as_internal (d e u : String) (lat lng : Int)
    (alt : Option Int) (sp hd dist et : Int) (au : Option String)
    (req : CreateEventReq) (nid : String) (now : Int) (s : Store) :
    joinEvent e u (some d) now s = (internalError d, s, none) ∧
    markUserReady e u (some d) now s = (internalError d, s) ∧
    setEventReady e au (some d) s = (internalError d, s, none) ∧
    startEvent e u (some d) now s = (internalError d, s, none) ∧
    deleteEvent e (some d) s = (internalErrorCap d, s, none) ∧
    getEventRegisteredUsers e (some d) s = internalError d ∧
    updateRunnerPosition e u lat lng alt sp hd dist et (some d) now s =
      (internalError d, s, none) ∧
    getEventRunnersPositions e (some d) now s = internalError d ∧
    createEvent req (some d) nid s = (internalError d, s, none) ∧
    internalError d =
      ⟨500, .obj [("error", .s "something went wrong"), ("details", .s d)]⟩ ∧
    internalErrorCap d =
      ⟨500, .obj [("error", .s "Something went wrong"), ("details", .s d)]⟩ :=
  ⟨rfl, rfl, rfl, rfl, rfl, rfl, rfl, rfl, rfl, rfl, rfl⟩

/-! ## C2: authorization gating order -/

/-- C2 counterexample: `bob` is not the host of the `open` event `e1`, yet
`startEvent` answers 409 Conflict (`event is not in ready state`), not 403
Forbidden — the status check precedes the host check. -/
theorem startEvent_nonhost_open_is_conflict :
    openEvt.trainerId ≠ some "bob" ∧ openEvt.status = "open" ∧
    (startEvent "e1" "bob" none 0 openStore).1 =
      conflict "event is not in ready state" ∧
    (startEvent "e1" "bob" none 0 openStore).1.status = 409 := by
  refine ⟨by simp [openEvt], rfl, rfl, rfl⟩

/-- C2 (amended): for an existing event whose host is `h` and a requester
`u ≠ h`, `setEventReady` returns Forbidden regardless of the event's status,
while `startEvent` returns Forbidden only when the status is `ready`; on any
other status its status check fires first and it returns Conflict. -/
theorem auth_gating_amended (e u h : String) (now : Int) (s : Store)
    (evt : EventRec) (he : e ≠ "") (hu : u ≠ "")
    (hfind : findEvent s e = some evt)
    (htr : evt.trainerId = some h) (hne : h ≠ u) :
    (setEventReady e (some u) none s).1 =
      forbidden "only the host can set event to ready" ∧
    (evt.status = "ready" →
      (startEvent e u none now s).1 =
        forbidden "only the host can start the event") ∧
    (evt.status ≠ "ready" →
      (startEvent e u none now s).1 =
        conflict "event is not in ready state") := by
  refine ⟨?_, ?_, ?_⟩
  · simp [setEventReady, he, hfind, htr, hne]
  · intro hstat
    simp [startEvent, he, hu, hfind, hstat, htr, hne]
  · intro hstat
    simp [startEvent, he, hu, hfind, hstat]

/-- C2 witness: `bob` against the open event `e1` hosted by `host`:
`setEventReady` is Forbidden, `startEvent` is Conflict. -/
theorem auth_gating_amended_witness :
    (("e1" : String) ≠ "" ∧ ("bob" : String) ≠ "" ∧
      findEvent openStore "e1" = some openEvt ∧
      openEvt.trainerId = some "host" ∧ ("host" : String) ≠ "bob") ∧
    ((setEventReady "e1" (some "bob") none openStore).1 =
        forbidden "only the host can set event to ready" ∧
      (openEvt.status = "ready" →
        (startEvent "e1" "bob" none 0 openStore).1 =
          forbidden "only the host can start the event") ∧
      (openEvt.status ≠ "ready" →
        (startEvent "e1" "bob" none 0 openStore).1 =
          conflict "event is not in ready state")) := by
  refine ⟨⟨by decide, by decide, by simp [openStore, openEvt, findEvent],
    by simp [openEvt], by decide⟩, ?_⟩
  exact auth_gating_amended "e1" "bob" "host" 0 openStore openEvt (by decide)
    (by decide) (by simp [openStore, openEvt, findEvent]) (by simp [openEvt])
    (by decide)

/-! ## C4: referential integrity on writes -/

/-- C4 counterexample: no event `e1` exists, yet `updateRunnerPosition`
succeeds (200) and appends the PositionSample — it performs no event
lookup before the write. -/
theorem updateRunnerPosition_writes_without_event :
    findEvent (⟨["u1"], [], [], [], [], true⟩ : Store) "e1" = none ∧
    (updateRunnerPosition "e1" "u1" 32 34 none 0 0 0 0 none 100
        ⟨["u1"], [], [], [], [], true⟩).1.status = 200 ∧
    (updateRunnerPosition "e1" "u1" 32 34 none 0 0 0 0 none 100
        ⟨["u1"], [], [], [], [], true⟩).2.1.positions =
      [⟨"e1", "u1_100", "u1", 32, 34, none, 0, 0, 0, 0, 100⟩] := by
  refine ⟨rfl, rfl, rfl⟩

/-- C4 (amended): `joinEvent` and `markUserReady` do check that the event
exists before writing and refuse with 404 leaving the store unchanged, but
`updateRunnerPosition` appends its PositionSample with no event-existence
check at all — also when the event is absent. -/
theorem write_event_checks_amended (e u : String) (lat lng now : Int)
    (s : Store) (he : e ≠ "") (hu : u ≠ "") (husr : u ∈ s.users)
    (hlat : lat ≠ 0) (hlng : lng ≠ 0) (habs : findEvent s e = none) :
    joinEvent e u none now s =
      (notFound ("event " ++ e ++ " not found"), s, none) ∧
    markUserReady e u none now s =
      (notFound ("event " ++ e ++ " not found"), s) ∧
    (updateRunnerPosition e u lat lng none 0 0 0 0 none now s).1.status = 200 ∧
    (updateRunnerPosition e u lat lng none 0 0 0 0 none now s).2.1.positions =
      s.positions ++ [⟨e, u ++ "_" ++ toString now, u, lat, lng, none,
                       0, 0, 0, 0, now⟩] := by
  refine ⟨?_, ?_, ?_, ?_⟩
  · simp [joinEvent, he, hu, husr, habs]
  · simp [markUserReady, he, hu, habs]
  · simp [updateRunnerPosition, he, hu, hlat, hlng]
  · simp [updateRunnerPosition, he, hu, hlat, hlng]

/-- C4 witness: user `u1` exists, event `e1` does not; the two ledger writes
refuse, the position write goes through. -/
theorem write_event_checks_amended_witness :
    (("e1" : String) ≠ "" ∧ ("u1" : String) ≠ "" ∧
      "u1" ∈ (⟨["u1"], [], [], [], [], true⟩ : Store).users ∧
      (32 : Int) ≠ 0 ∧ (34 : Int) ≠ 0 ∧
      findEvent (⟨["u1"], [], [], [], [], true⟩ : Store) "e1" = none) ∧
    (joinEvent "e1" "u1" none 100 (⟨["u1"], [], [], [], [], true⟩ : Store) =
        (notFound "event e1 not found", ⟨["u1"], [], [], [], [], true⟩, none) ∧
      markUserReady "e1" "u1" none 100 (⟨["u1"], [], [], [], [], true⟩ : Store) =
        (notFound "event e1 not found", ⟨["u1"], [], [], [], [], true⟩) ∧
      (updateRunnerPosition "e1" "u1" 32 34 none 0 0 0 0 none 100
          (⟨["u1"], [], [], [], [], true⟩ : Store)).1.status = 200 ∧
      (updateRunnerPosition "e1" "u1" 32 34 none 0 0 0 0 none 100
          (⟨["u1"], [], [], [], [], true⟩ : Store)).2.1.positions =
        [] ++ [⟨"e1", "u1" ++ "_" ++ toString (100 : Int), "u1", 32, 34, none,
               0, 0, 0, 0, 100⟩]) := by
  refine ⟨⟨by decide, by decide, by simp, by decide, by decide,
    by simp [findEvent]⟩, ?_⟩
  exact write_event_checks_amended "e1" "u1" 32 34 100 _ (by decide) (by decide)
    (by simp) (by decide) (by decide) (by simp [findEvent])

/-! ## C5: deleteEvent -/

/-- Helper: deleting the partition leaves no row of this event behind. -/
theorem find?_rowKey_filter_ne (l : List EventRec) (e : String) :
    (l.filter (fun x => x.rowKey ≠ e)).find? (fun x => x.rowKey == e) = none := by
  rw [List.find?_eq_none]
  intro x hx
  have hne := (List.mem_filter.mp hx).2
  simp only [ne_eq, decide_not, Bool.not_eq_true', decide_eq_false_iff_not] at hne
  simp [hne]

/-- Helper: when the event is absent, filtering it out changes nothing. -/
theorem events_filter_of_not_found {s : Store} {e : String}
    (h : findEvent s e = none) :
    s.events.filter (fun x => x.rowKey ≠ e) = s.events := by
  rw [List.filter_eq_self]
  intro a ha
  have := List.find?_eq_none.mp h a ha
  simp only [beq_iff_eq] at this
  simp [this]

/-- C5 counterexample: `e1` is absent, yet `deleteEvent` (returning 404)
still wipes the orphan registration of its partition and still broadcasts
`eventDeleted` — it neither leaves the store unchanged nor stays silent. -/
theorem deleteEvent_absent_mutates_and_broadcasts :
    findEvent orphanStore "e1" = none ∧
    orphanStore.runners = [⟨"e1", "A", 0⟩] ∧
    (deleteEvent "e1" none orphanStore).1.status = 404 ∧
    (deleteEvent "e1" none orphanStore).2.1.runners = [] ∧
    (deleteEvent "e1" none orphanStore).2.2 =
      some ⟨"eventDeleted", [.s "e1"]⟩ := by
  refine ⟨by simp [orphanStore, findEvent], rfl, rfl, rfl, rfl⟩

/-- C5 (amended): `deleteEvent` always deletes the event's registration
partition and always broadcasts `eventDeleted`, even on the 404 path for an
absent event; on an existing event it removes the Event and every
Registration of its partition, leaves ReadyMarks and PositionSamples
untouched, and afterwards `getEventRegisteredUsers` reports the event as
not found. -/
theorem deleteEvent_amended (e : String) (s : Store)
    (he : e ≠ "") (htbl : s.runnersTableExists = true) :
    (findEvent s e = none →
      (deleteEvent e none s).1.status = 404 ∧
      (deleteEvent e none s).2.1.events = s.events ∧
      (deleteEvent e none s).2.1.runners =
        s.runners.filter (fun r => r.eventId ≠ e) ∧
      (deleteEvent e none s).2.1.readyMarks = s.readyMarks ∧
      (deleteEvent e none s).2.1.positions = s.positions ∧
      (deleteEvent e none s).2.2 = some ⟨"eventDeleted", [.s e]⟩) ∧
    (∀ evt, findEvent s e = some evt →
      (deleteEvent e none s).1 =
        ⟨200, .obj [("message", .s "event deleted"), ("eventId", .s e)]⟩ ∧
      findEvent (deleteEvent e none s).2.1 e = none ∧
      (deleteEvent e none s).2.1.runners =
        s.runners.filter (fun r => r.eventId ≠ e) ∧
      (deleteEvent e none s).2.1.readyMarks = s.readyMarks ∧
      (deleteEvent e none s).2.1.positions = s.positions ∧
      (deleteEvent e none s).2.2 = some ⟨"eventDeleted", [.s e]⟩ ∧
      getEventRegisteredUsers e none (deleteEvent e none s).2.1 =
        notFound ("Event with id " ++ e ++ " not found")) := by
  constructor
  · intro habs
    have hall : ∀ a ∈ s.events, ¬a.rowKey = e := by
      intro a ha
      have := List.find?_eq_none.mp habs a ha
      simpa using this
    refine ⟨?_, ?_, ?_, ?_, ?_, ?_⟩
    · simp [deleteEvent, he, htbl, habs]
    · simp [deleteEvent, he, htbl, habs]
      exact hall
    · simp [deleteEvent, he, htbl, habs]
    · simp [deleteEvent, he, htbl, habs]
    · simp [deleteEvent, he, htbl, habs]
    · simp [deleteEvent, he, htbl, habs]
  · intro evt hsome
    have hev : (deleteEvent e none s).2.1.events =
        s.events.filter (fun x => x.rowKey ≠ e) := by
      by_cases hc : (findEvent s e).isSome = true
      · simp [deleteEvent, he, hc]
      · simp [deleteEvent, he, hc]
    have hfil : findEvent (deleteEvent e none s).2.1 e = none := by
      unfold findEvent
      rw [hev]
      exact find?_rowKey_filter_ne _ _
    refine ⟨?_, hfil, ?_, ?_, ?_, ?_, ?_⟩
    · simp [deleteEvent, he, htbl, hsome]
    · simp [deleteEvent, he, htbl, hsome]
    · simp [deleteEvent, he, htbl, hsome]
    · simp [deleteEvent, he, htbl, hsome]
    · simp [deleteEvent, he, htbl, hsome]
    · simp [getEventRegisteredUsers, he, hfil]

/-- C5 witness: deleting the existing event `e1` with registrations `{A,B}`:
the event and both registrations are gone, the ready mark and the position
sample survive, `eventDeleted` is broadcast, and `getEventRegisteredUsers`
then returns the 404. -/
theorem deleteEvent_amended_witness :
    (("e1" : String) ≠ "" ∧ cascadeStore.runnersTableExists = true) ∧
    (∀ evt, findEvent cascadeStore "e1" = some evt →
      (deleteEvent "e1" none cascadeStore).1 =
        ⟨200, .obj [("message", .s "event deleted"), ("eventId", .s "e1")]⟩ ∧
      findEvent (deleteEvent "e1" none cascadeStore).2.1 "e1" = none ∧
      (deleteEvent "e1" none cascadeStore).2.1.runners =
        cascadeStore.runners.filter (fun r => r.eventId ≠ "e1") ∧
      (deleteEvent "e1" none cascadeStore).2.1.readyMarks =
        cascadeStore.readyMarks ∧
      (deleteEvent "e1" none cascadeStore).2.1.positions =
        cascadeStore.positions ∧
      (deleteEvent "e1" none cascadeStore).2.2 =
        some ⟨"eventDeleted", [.s "e1"]⟩ ∧
      getEventRegisteredUsers "e1" none (deleteEvent "e1" none cascadeStore).2.1 =
        notFound ("Event with id " ++ "e1" ++ " not found")) := by
  refine ⟨⟨by decide, rfl⟩, ?_⟩
  exact (deleteEvent_amended "e1" cascadeStore (by decide) rfl).2

/-! ## C8: idempotent join -/

/-- Helper: searching an appended list when the front has no hit. -/
theorem find?_append_of_none {α : Type} (p : α → Bool) (l1 l2 : List α)
    (h : l1.find? p = none) : (l1 ++ l2).find? p = l2.find? p := by
  induction l1 with
  | nil => rfl
  | cons a l ih =>
    by_cases hpa : p a = true
    · rw [List.find?_cons_of_pos _ hpa] at h; cases h
    · rw [List.find?_cons_of_neg _ hpa] at h
      rw [List.cons_append, List.find?_cons_of_neg _ hpa]
      exact ih h

/-- Helper: no Registration row found means a zero count. -/
theorem regCount_eq_zero {s : Store} {e u : String}
    (h : findRunner s e u = none) : regCount s e u = 0 := by
  unfold findRunner at h
  unfold regCount
  rw [List.countP_eq_zero]
  intro a ha
  exact List.find?_eq_none.mp h a ha

/-- Helper: a found Registration row means a positive count. -/
theorem regCount_pos {s : Store} {e u : String} {r : Registration}
    (h : findRunner s e u = some r) : 1 ≤ regCount s e u := by
  unfold findRunner at h
  unfold regCount
  have hp := List.find?_some h
  exact List.countP_pos_iff.mpr ⟨r, List.mem_of_find?_eq_some h, hp⟩

/-- Helper: appending the row for `(e, u)` bumps its count by one. -/
theorem regCount_append (s : Store) (e u : String) (t : Int) :
    regCount { s with runners := s.runners ++ [⟨e, u, t⟩] } e u =
      regCount s e u + 1 := by
  unfold regCount
  rw [List.countP_append]
  simp

/-- C8 counterexample: the duplicate `joinEvent` is a success but not *the
same* success response as the first-time join: 201 `user joined event`
versus 200 `user already joined` (still exactly one Registration row). -/
theorem joinEvent_duplicate_response_differs :
    (joinEvent "e1" "u1" none 10 joinStore).1.status = 201 ∧
    (joinEvent "e1" "u1" none 20
        (joinEvent "e1" "u1" none 10 joinStore).2.1).1.status = 200 ∧
    (joinEvent "e1" "u1" none 10 joinStore).1.status ≠
      (joinEvent "e1" "u1" none 20
        (joinEvent "e1" "u1" none 10 joinStore).2.1).1.status ∧
    (joinEvent "e1" "u1" none 20
        (joinEvent "e1" "u1" none 10 joinStore).2.1).2.1.runners =
      [⟨"e1", "u1", 10⟩] := by
  refine ⟨rfl, rfl, by decide, rfl⟩

/-- C8 (amended): on an `open` event, calling `joinEvent(e,u)` twice succeeds
both times (201 or 200 first, 200 second) and leaves exactly one Registration
row for `(e,u)`; the duplicate call translates the store's already-exists
into a success response — but a 200 `user already joined`, not a response
identical to the first-time 201. -/
theorem joinEvent_idempotent (e u : String) (now1 now2 : Int) (s : Store)
    (evt : EventRec) (he : e ≠ "") (hu : u ≠ "") (husr : u ∈ s.users)
    (hfind : findEvent s e = some evt) (hopen : evt.status = "open")
    (hcnt : regCount s e u ≤ 1) :
    ((joinEvent e u none now1 s).1.status = 201 ∨
      (joinEvent e u none now1 s).1.status = 200) ∧
    (joinEvent e u none now2 (joinEvent e u none now1 s).2.1).1.status = 200 ∧
    regCount
      (joinEvent e u none now2 (joinEvent e u none now1 s).2.1).2.1 e u = 1 ∧
    (joinEvent e u none now2 (joinEvent e u none now1 s).2.1).2.1 =
      (joinEvent e u none now1 s).2.1 := by
  cases hrun : findRunner s e u with
  | none =>
    have h1 : joinEvent e u none now1 s =
        (⟨201, .obj [("message", .s "user joined event"),
                     ("eventId", .s e), ("userId", .s u)]⟩,
         { s with runners := s.runners ++ [⟨e, u, now1⟩] },
         some ⟨"updateEvent", [.obj [("eventId", .s e)]]⟩) := by
      simp [joinEvent, he, hu, husr, hfind, hopen, hrun]
    have hfind1 :
        findEvent { s with runners := s.runners ++ [⟨e, u, now1⟩] } e =
          some evt := hfind
    have hrun1 :
        findRunner { s with runners := s.runners ++ [⟨e, u, now1⟩] } e u =
          some ⟨e, u, now1⟩ := by
      unfold findRunner at hrun ⊢
      rw [show ({ s with runners := s.runners ++ [⟨e, u, now1⟩] } : Store).runners
            = s.runners ++ [⟨e, u, now1⟩] from rfl,
          find?_append_of_none _ _ _ hrun]
      simp
    have h2 : joinEvent e u none now2
        { s with runners := s.runners ++ [⟨e, u, now1⟩] } =
        (⟨200, .obj [("message", .s "user already joined"),
                     ("eventId", .s e), ("userId", .s u)]⟩,
         { s with runners := s.runners ++ [⟨e, u, now1⟩] }, none) := by
      simp [joinEvent, he, hu, husr, hfind1, hopen, hrun1]
    rw [h1]
    refine ⟨Or.inl rfl, ?_, ?_, ?_⟩
    · rw [h2]
    · rw [h2]
      rw [regCount_append, regCount_eq_zero hrun]
    · rw [h2]
  | some r =>
    have h1 : ∀ t : Int, joinEvent e u none t s =
        (⟨200, .obj [("message", .s "user already joined"),
                     ("eventId", .s e), ("userId", .s u)]⟩, s, none) := by
      intro t
      simp [joinEvent, he, hu, husr, hfind, hopen, hrun]
    have hcnt1 : regCount s e u = 1 :=
      Nat.le_antisymm hcnt (regCount_pos hrun)
    rw [h1 now1]
    refine ⟨Or.inr rfl, ?_, ?_, ?_⟩
    · rw [h1 now2]
    · rw [h1 now2]
      exact hcnt1
    · rw [h1 now2]

/-- C8 witness: `u1` joins the open event `e1` twice from a fresh ledger. -/
theorem joinEvent_idempotent_witness :
    (("e1" : String) ≠ "" ∧ ("u1" : String) ≠ "" ∧ "u1" ∈ joinStore.users ∧
      findEvent joinStore "e1" = some openEvt ∧ openEvt.status = "open" ∧
      regCount joinStore "e1" "u1" ≤ 1) ∧
    (((joinEvent "e1" "u1" none 10 joinStore).1.status = 201 ∨
        (joinEvent "e1" "u1" none 10 joinStore).1.status = 200) ∧
      (joinEvent "e1" "u1" none 20
        (joinEvent "e1" "u1" none 10 joinStore).2.1).1.status = 200 ∧
      regCount (joinEvent "e1" "u1" none 20
        (joinEvent "e1" "u1" none 10 joinStore).2.1).2.1 "e1" "u1" = 1 ∧
      (joinEvent "e1" "u1" none 20
        (joinEvent "e1" "u1" none 10 joinStore).2.1).2.1 =
        (joinEvent "e1" "u1" none 10 joinStore).2.1) := by
  refine ⟨⟨by decide, by decide, by simp [joinStore],
    by simp [joinStore, openEvt, findEvent], rfl, by decide⟩, ?_⟩
  exact joinEvent_idempotent "e1" "u1" 10 20 joinStore openEvt (by decide)
    (by decide) (by simp [joinStore]) (by simp [joinStore, openEvt, findEvent])
    rfl (by decide)

/-! ## C9: markUserReady -/

/-- Helper: no ReadyMark found means a zero count. -/
theorem readyCount_eq_zero {s : Store} {e u : String}
    (h : findReadyMark s e u = none) : readyCount s e u = 0 := by
  unfold findReadyMark at h
  unfold readyCount
  rw [List.countP_eq_zero]
  intro a ha
  exact List.find?_eq_none.mp h a ha

/-- Helper: a found ReadyMark means a positive count. -/
theorem readyCount_pos {s : Store} {e u : String} {m : ReadyMark}
    (h : findReadyMark s e u = some m) : 1 ≤ readyCount s e u := by
  unfold findReadyMark at h
  unfold readyCount
  have hp := List.find?_some h
  exact List.countP_pos_iff.mpr ⟨m, List.mem_of_find?_eq_some h, hp⟩

/-- Helper: appending the mark for `(e, u)` bumps its count by one. -/
theorem readyCount_append (s : Store) (e u : String) (t : Int) :
    readyCount { s with readyMarks := s.readyMarks ++ [⟨e, u, t⟩] } e u =
      readyCount s e u + 1 := by
  unfold readyCount
  rw [List.countP_append]
  simp

/-- C9: `markUserReady` is 404 on an absent event, 409 on a non-`ready`
status, 403 for a user with no Registration; for a registered user on a
`ready` event it succeeds (201 fresh, 200 duplicate) and leaves exactly one
ReadyMark for `(e,u)`, the duplicate call changing nothing. -/
theorem markUserReady_spec (e u : String) (now now2 : Int) (s : Store)
    (he : e ≠ "") (hu : u ≠ "") :
    (findEvent s e = none →
      markUserReady e u none now s =
        (notFound ("event " ++ e ++ " not found"), s)) ∧
    (∀ evt, findEvent s e = some evt → evt.status ≠ "ready" →
      markUserReady e u none now s = (conflict "event is not in ready state", s)) ∧
    (∀ evt, findEvent s e = some evt → evt.status = "ready" →
      findRunner s e u = none →
      markUserReady e u none now s =
        (forbidden "user is not registered for this event", s)) ∧
    (∀ evt, findEvent s e = some evt → evt.status = "ready" →
      (findRunner s e u).isSome = true → readyCount s e u ≤ 1 →
      ((markUserReady e u none now s).1.status = 201 ∨
        (markUserReady e u none now s).1.status = 200) ∧
      readyCount (markUserReady e u none now s).2 e u = 1 ∧
      (markUserReady e u none now2 (markUserReady e u none now s).2).1.status
        = 200 ∧
      (markUserReady e u none now2 (markUserReady e u none now s).2).2 =
        (markUserReady e u none now s).2) := by
  refine ⟨?_, ?_, ?_, ?_⟩
  · intro habs
    simp [markUserReady, he, hu, habs]
  · intro evt hsome hstat
    simp [markUserReady, he, hu, hsome, hstat]
  · intro evt hsome hstat hreg
    simp [markUserReady, he, hu, hsome, hstat, hreg]
  · intro evt hsome hstat hreg hcnt
    rw [Option.isSome_iff_exists] at hreg
    obtain ⟨r, hr⟩ := hreg
    cases hmark : findReadyMark s e u with
    | none =>
      have h1 : markUserReady e u none now s =
          (⟨201, .obj [("message", .s "user marked as ready"),
                       ("eventId", .s e), ("userId", .s u)]⟩,
           { s with readyMarks := s.readyMarks ++ [⟨e, u, now⟩] }) := by
        simp [markUserReady, he, hu, hsome, hstat, hr, hmark]
      have hsome1 :
          findEvent { s with readyMarks := s.readyMarks ++ [⟨e, u, now⟩] } e =
            some evt := hsome
      have hr1 :
          findRunner { s with readyMarks := s.readyMarks ++ [⟨e, u, now⟩] } e u
            = some r := hr
      have hmark1 :
          findReadyMark { s with readyMarks := s.readyMarks ++ [⟨e, u, now⟩] }
            e u = some ⟨e, u, now⟩ := by
        unfold findReadyMark at hmark ⊢
        rw [show ({ s with readyMarks := s.readyMarks ++ [⟨e, u, now⟩] } :
              Store).readyMarks = s.readyMarks ++ [⟨e, u, now⟩] from rfl,
            find?_append_of_none _ _ _ hmark]
        simp
      have h2 : markUserReady e u none now2
          { s with readyMarks := s.readyMarks ++ [⟨e, u, now⟩] } =
          (⟨200, .obj [("message", .s "user already marked as ready"),
                       ("eventId", .s e), ("userId", .s u)]⟩,
           { s with readyMarks := s.readyMarks ++ [⟨e, u, now⟩] }) := by
        simp [markUserReady, he, hu, hsome1, hstat, hr1, hmark1]
      rw [h1]
      refine ⟨Or.inl rfl, ?_, ?_, ?_⟩
      · rw [readyCount_append, readyCount_eq_zero hmark]
      · rw [h2]
      · rw [h2]
    | some m =>
      have h1 : ∀ t : Int, markUserReady e u none t s =
          (⟨200, .obj [("message", .s "user already marked as ready"),
                       ("eventId", .s e), ("userId", .s u)]⟩, s) := by
        intro t
        simp [markUserReady, he, hu, hsome, hstat, hr, hmark]
      have hcnt1 : readyCount s e u = 1 :=
        Nat.le_antisymm hcnt (readyCount_pos hmark)
      rw [h1 now]
      refine ⟨Or.inr rfl, hcnt1, ?_, ?_⟩
      · rw [h1 now2]
      · rw [h1 now2]

/-- C9 witness: the `ready` event `e1` hosted by `host`, with `runner`
registered and not yet marked; each error branch is vacuous or instantiated,
and the success branch yields exactly one ReadyMark. -/
theorem markUserReady_spec_witness :
    (("e1" : String) ≠ "" ∧ ("runner" : String) ≠ "") ∧
    ((findEvent markReadyStore "e1" = none →
        markUserReady "e1" "runner" none 7 markReadyStore =
          (notFound ("event " ++ "e1" ++ " not found"), markReadyStore)) ∧
      (∀ evt, findEvent markReadyStore "e1" = some evt →
        evt.status ≠ "ready" →
        markUserReady "e1" "runner" none 7 markReadyStore =
          (conflict "event is not in ready state", markReadyStore)) ∧
      (∀ evt, findEvent markReadyStore "e1" = some evt →
        evt.status = "ready" → findRunner markReadyStore "e1" "runner" = none →
        markUserReady "e1" "runner" none 7 markReadyStore =
          (forbidden "user is not registered for this event", markReadyStore)) ∧
      (∀ evt, findEvent markReadyStore "e1" = some evt →
        evt.status = "ready" →
        (findRunner markReadyStore "e1" "runner").isSome = true →
        readyCount markReadyStore "e1" "runner" ≤ 1 →
        ((markUserReady "e1" "runner" none 7 markReadyStore).1.status = 201 ∨
          (markUserReady "e1" "runner" none 7 markReadyStore).1.status = 200) ∧
        readyCount (markUserReady "e1" "runner" none 7 markReadyStore).2
          "e1" "runner" = 1 ∧
        (markUserReady "e1" "runner" none 8
          (markUserReady "e1" "runner" none 7 markReadyStore).2).1.status
          = 200 ∧
        (markUserReady "e1" "runner" none 8
          (markUserReady "e1" "runner" none 7 markReadyStore).2).2 =
          (markUserReady "e1" "runner" none 7 markReadyStore).2)) := by
  refine ⟨⟨by decide, by decide⟩, ?_⟩
  exact markUserReady_spec "e1" "runner" 7 8 markReadyStore (by decide)
    (by decide)

/-! ## C3: start pruning -/

/-- Helper: replacing the matching row in place is what `find?` sees after
`update_entity`. -/
theorem find?_map_update (l : List EventRec) (e : String) (evt evt' : EventRec)
    (h : l.find? (fun x => x.rowKey == e) = some evt) (hrk : evt'.rowKey = e) :
    (l.map (fun x => if x.rowKey == e then evt' else x)).find?
      (fun x => x.rowKey == e) = some evt' := by
  induction l with
  | nil => cases h
  | cons a l ih =>
    by_cases ha : a.rowKey = e
    · simp [List.find?_cons, ha, hrk]
    · have h' : l.find? (fun x => x.rowKey == e) = some evt := by
        simpa [List.find?_cons, ha] using h
      rw [List.map_cons,
        show (if (a.rowKey == e) = true then evt' else a) = a by simp [ha],
        List.find?_cons_of_neg _ (by simp [ha])]
      exact ih h'

/-- C3: `startEvent` by the host `h` of a `ready` event computes the ready
set as the ReadyUsers partition plus the host, deletes exactly the
registrations of this event whose user is outside the ready set, stamps
`startedAt = now` on the event, and answers 200 with `readyUsers`,
`removedUsers` and `startedAt`. -/
theorem startEvent_prune_spec (e h : String) (now : Int) (s : Store)
    (evt : EventRec) (he : e ≠ "") (hh : h ≠ "")
    (hfind : findEvent s e = some evt) (hstat : evt.status = "ready")
    (htr : evt.trainerId = some h) :
    (startEvent e h none now s).1 =
      ⟨200, .obj [("message", .s "event started"), ("eventId", .s e),
                  ("status", .s "started"), ("startedAt", .i now),
                  ("readyUsers", .arr ((readySetOf s e h).map .s)),
                  ("removedUsers", .arr ((removedOf s e h).map .s))]⟩ ∧
    (∀ u, u ∈ readySetOf s e h ↔ u ∈ readyIdsOf s e ∨ u = h) ∧
    (∀ u, u ∈ removedOf s e h ↔
      u ∈ registeredIdsOf s e ∧ u ∉ readySetOf s e h) ∧
    (startEvent e h none now s).2.1.runners =
      s.runners.filter (fun r => r.eventId ≠ e ∨ r.userId ∈ readySetOf s e h) ∧
    (∀ r, r ∈ (startEvent e h none now s).2.1.runners ↔
      r ∈ s.runners ∧ (r.eventId = e → r.userId ∈ readySetOf s e h)) ∧
    findEvent (startEvent e h none now s).2.1 e =
      some { evt with startedAt := some now } := by
  have hrk : evt.rowKey = e := by
    have := List.find?_some hfind
    simpa using this
  have hA : (startEvent e h none now s).1 =
      ⟨200, .obj [("message", .s "event started"), ("eventId", .s e),
                  ("status", .s "started"), ("startedAt", .i now),
                  ("readyUsers", .arr ((readySetOf s e h).map .s)),
                  ("removedUsers", .arr ((removedOf s e h).map .s))]⟩ := by
    by_cases hmem : h ∈ readyIdsOf s e <;>
      simp [startEvent, he, hh, hfind, hstat, htr, readySetOf, removedOf, hmem]
  have hD : (startEvent e h none now s).2.1.runners =
      s.runners.filter
        (fun r => r.eventId ≠ e ∨ r.userId ∈ readySetOf s e h) := by
    by_cases hmem : h ∈ readyIdsOf s e <;>
      simp [startEvent, he, hh, hfind, hstat, htr, readySetOf, hmem]
  have hEv : (startEvent e h none now s).2.1.events =
      s.events.map
        (fun x => if x.rowKey == e then { evt with startedAt := some now }
          else x) := by
    by_cases hmem : h ∈ readyIdsOf s e <;>
      simp [startEvent, he, hh, hfind, hstat, htr, hmem]
  refine ⟨hA, ?_, ?_, hD, ?_, ?_⟩
  · intro u
    by_cases hmem : h ∈ readyIdsOf s e
    · simp only [readySetOf, if_pos hmem]
      constructor
      · exact fun hx => Or.inl hx
      · rintro (hx | rfl)
        · exact hx
        · exact hmem
    · simp [readySetOf, if_neg hmem]
  · intro u
    simp [removedOf, List.mem_filter]
  · intro r
    rw [hD, List.mem_filter]
    constructor
    · rintro ⟨hmem, hp⟩
      refine ⟨hmem, ?_⟩
      intro hre
      have hp' : ¬r.eventId = e ∨ r.userId ∈ readySetOf s e h := by
        simpa using hp
      rcases hp' with hp' | hp'
      · exact absurd hre hp'
      · exact hp'
    · rintro ⟨hmem, hp⟩
      refine ⟨hmem, ?_⟩
      by_cases hre : r.eventId = e
      · simp [hre, hp hre]
      · simp [hre]
  · unfold findEvent
    rw [hEv]
    exact find?_map_update s.events e evt _ hfind (by simpa using hrk)

/-- C3 witness: registrations `{A,B,C}`, ready marks `{B}`, host `H` not
registered: `readyUsers = [B, H]`, `removedUsers = [A, C]`, the ledger keeps
exactly `B`'s row, and `e1` is stamped `startedAt`. -/
theorem startEvent_prune_spec_witness :
    (("e1" : String) ≠ "" ∧ ("H" : String) ≠ "" ∧
      findEvent pruneStore "e1" = some readyEvt ∧
      readyEvt.status = "ready" ∧ readyEvt.trainerId = some "H") ∧
    readySetOf pruneStore "e1" "H" = ["B", "H"] ∧
    removedOf pruneStore "e1" "H" = ["A", "C"] ∧
    (startEvent "e1" "H" none 5 pruneStore).2.1.runners = [⟨"e1", "B", 2⟩] ∧
    findEvent (startEvent "e1" "H" none 5 pruneStore).2.1 "e1" =
      some { readyEvt with startedAt := some 5 } := by
  refine ⟨⟨by decide, by decide, rfl, rfl, rfl⟩, rfl, rfl, rfl, ?_⟩
  exact (startEvent_prune_spec "e1" "H" 5 pruneStore readyEvt (by decide)
    (by decide) rfl rfl rfl).2.2.2.2.2

/-! ## C6: freshness reduction -/

/-- Helper: one loop step either leaves the key list alone (user already
present, possibly replaced in place) or appends the new user's key. -/
theorem latestStep_map_userId (acc : List RunnerPosEntry) (p : PositionSample) :
    (latestStep acc p).map (fun a => a.userId) =
      if p.userId ∈ acc.map (fun a => a.userId) then
        acc.map (fun a => a.userId)
      else acc.map (fun a => a.userId) ++ [p.userId] := by
  unfold latestStep
  cases hf : acc.find? (fun a => a.userId == p.userId) with
  | none =>
    have hnm : p.userId ∉ acc.map (fun a => a.userId) := by
      intro hm
      obtain ⟨a, ha, hau⟩ := List.mem_map.mp hm
      have := List.find?_eq_none.mp hf a ha
      simp [hau] at this
    simp [hnm, mkEntry]
  | some e0 =>
    have he0 : e0 ∈ acc := List.mem_of_find?_eq_some hf
    have he0u : e0.userId = p.userId := by simpa using List.find?_some hf
    have hm : p.userId ∈ acc.map (fun a => a.userId) :=
      List.mem_map.mpr ⟨e0, he0, he0u⟩
    dsimp only
    by_cases hts : p.timestamp > e0.timestamp
    · rw [if_pos hts, if_pos hm, List.map_map]
      apply List.map_congr_left
      intro a _
      by_cases hau : (a.userId == p.userId) = true
      · have hau' : a.userId = p.userId := by simpa using hau
        simp only [Function.comp_apply, if_pos hau, mkEntry]
        exact hau'.symm
      · simp only [Function.comp_apply, if_neg hau]
    · rw [if_neg hts, if_pos hm]

/-- Helper: the reduction never produces two entries for one user. -/
theorem reduce_keys_nodup (ps : List PositionSample) (acc : List RunnerPosEntry)
    (h : (acc.map (fun a => a.userId)).Nodup) :
    ((ps.foldl latestStep acc).map (fun a => a.userId)).Nodup := by
  induction ps generalizing acc with
  | nil => exact h
  | cons p ps ih =>
    rw [List.foldl_cons]
    apply ih
    rw [latestStep_map_userId]
    split_ifs with hmem
    · exact h
    · simp [List.nodup_append, h, hmem]

/-- Helper: a user key appears in the reduction iff it was already in the
accumulator or some processed sample carries it. -/
theorem mem_keys_reduce (ps : List PositionSample) (acc : List RunnerPosEntry)
    (u : String) :
    u ∈ (ps.foldl latestStep acc).map (fun a => a.userId) ↔
      u ∈ acc.map (fun a => a.userId) ∨ ∃ p ∈ ps, p.userId = u := by
  induction ps generalizing acc with
  | nil => simp
  | cons p ps ih =>
    rw [List.foldl_cons, ih, latestStep_map_userId]
    split_ifs with hmem
    · constructor
      · rintro (h | ⟨q, hq, hqu⟩)
        · exact Or.inl h
        · exact Or.inr ⟨q, List.mem_cons_of_mem _ hq, hqu⟩
      · rintro (h | ⟨q, hq, hqu⟩)
        · exact Or.inl h
        · rcases List.mem_cons.mp hq with rfl | hq'
          · exact Or.inl (hqu ▸ hmem)
          · exact Or.inr ⟨q, hq', hqu⟩
    · constructor
      · rintro (h | ⟨q, hq, hqu⟩)
        · rcases List.mem_append.mp h with h | h
          · exact Or.inl h
          · exact Or.inr ⟨p, List.mem_cons_self _ _,
              (List.mem_singleton.mp h).symm⟩
        · exact Or.inr ⟨q, List.mem_cons_of_mem _ hq, hqu⟩
      · rintro (h | ⟨q, hq, hqu⟩)
        · exact Or.inl (List.mem_append.mpr (Or.inl h))
        · rcases List.mem_cons.mp hq with rfl | hq'
          · exact Or.inl (List.mem_append.mpr (Or.inr (by simp [hqu])))
          · exact Or.inr ⟨q, hq', hqu⟩

/-- Helper: anything in the stepped accumulator was there before or is the
entry of the new sample. -/
theorem mem_latestStep (acc : List RunnerPosEntry) (p : PositionSample) {x}
    (h : x ∈ latestStep acc p) : x ∈ acc ∨ x = mkEntry p := by
  unfold latestStep at h
  split at h
  · rcases List.mem_append.mp h with h' | h'
    · exact Or.inl h'
    · exact Or.inr (List.mem_singleton.mp h')
  · split at h
    · obtain ⟨a, ha, rfl⟩ := List.mem_map.mp h
      by_cases hau : (a.userId == p.userId) = true
      · rw [if_pos hau]
        exact Or.inr rfl
      · rw [if_neg hau]
        exact Or.inl ha
    · exact Or.inl h

/-- Helper: every entry of the reduction is the verbatim entry of one of the
processed samples (or survives from the accumulator). -/
theorem reduce_source (ps : List PositionSample) (acc : List RunnerPosEntry)
    {x} (h : x ∈ ps.foldl latestStep acc) :
    x ∈ acc ∨ ∃ p ∈ ps, p.userId = x.userId ∧ x = mkEntry p := by
  induction ps generalizing acc with
  | nil => exact Or.inl h
  | cons p ps ih =>
    rw [List.foldl_cons] at h
    rcases ih _ h with h' | ⟨q, hq, hqu, hx⟩
    · rcases mem_latestStep acc p h' with h'' | rfl
      · exact Or.inl h''
      · exact Or.inr ⟨p, List.mem_cons_self _ _, rfl, rfl⟩
    · exact Or.inr ⟨q, List.mem_cons_of_mem _ hq, hqu, hx⟩

/-- Helper: right after its own sample is processed, the user's entry exists
and dominates that sample's timestamp (keys must be duplicate-free so an
in-place skip cannot hide an older duplicate). -/
theorem latestStep_dominates (acc : List RunnerPosEntry)
    (hnd : (acc.map (fun a => a.userId)).Nodup) (q : PositionSample) :
    (∃ a ∈ latestStep acc q, a.userId = q.userId) ∧
    (∀ a ∈ latestStep acc q, a.userId = q.userId →
      q.timestamp ≤ a.timestamp) := by
  unfold latestStep
  cases hf : acc.find? (fun a => a.userId == q.userId) with
  | none =>
    dsimp only
    constructor
    · exact ⟨mkEntry q, by simp, rfl⟩
    · intro a ha hau
      rcases List.mem_append.mp ha with ha' | ha'
      · have := List.find?_eq_none.mp hf a ha'
        simp [hau] at this
      · rw [List.mem_singleton.mp ha']
        exact le_refl _
  | some e0 =>
    have he0 : e0 ∈ acc := List.mem_of_find?_eq_some hf
    have he0u : e0.userId = q.userId := by simpa using List.find?_some hf
    dsimp only
    by_cases hts : q.timestamp > e0.timestamp
    · rw [if_pos hts]
      constructor
      · refine ⟨mkEntry q, ?_, rfl⟩
        refine List.mem_map.mpr ⟨e0, he0, ?_⟩
        rw [if_pos (by simp [he0u])]
      · intro a ha hau
        obtain ⟨b, hb, rfl⟩ := List.mem_map.mp ha
        by_cases hbu : (b.userId == q.userId) = true
        · rw [if_pos hbu]
          exact le_refl _
        · rw [if_neg hbu] at hau
          exact absurd (by simp [hau]) hbu
    · rw [if_neg hts]
      constructor
      · exact ⟨e0, he0, he0u⟩
      · intro a ha hau
        have hae : a = e0 :=
          List.inj_on_of_nodup_map hnd ha he0 (by rw [hau, he0u])
        rw [hae]
        exact le_of_not_lt hts

/-- Helper: presence of a user's entry and a lower bound on its timestamp
are preserved by the rest of the loop (a replacement only raises it). -/
theorem foldl_lower_bound (ps : List PositionSample)
    (acc : List RunnerPosEntry) (u : String) (t : Int)
    (hpres : ∃ a ∈ acc, a.userId = u)
    (hlb : ∀ a ∈ acc, a.userId = u → t ≤ a.timestamp) :
    (∃ a ∈ ps.foldl latestStep acc, a.userId = u) ∧
    (∀ a ∈ ps.foldl latestStep acc, a.userId = u → t ≤ a.timestamp) := by
  induction ps generalizing acc with
  | nil => exact ⟨hpres, hlb⟩
  | cons p ps ih =>
    rw [List.foldl_cons]
    obtain ⟨a0, ha0, ha0u⟩ := hpres
    apply ih
    · unfold latestStep
      cases hf : acc.find? (fun a => a.userId == p.userId) with
      | none => exact ⟨a0, List.mem_append.mpr (Or.inl ha0), ha0u⟩
      | some e0 =>
        dsimp only
        by_cases hts : p.timestamp > e0.timestamp
        · rw [if_pos hts]
          by_cases hb : (a0.userId == p.userId) = true
          · refine ⟨mkEntry p, List.mem_map.mpr ⟨a0, ha0, by rw [if_pos hb]⟩, ?_⟩
            have hb' : a0.userId = p.userId := by simpa using hb
            rw [mkEntry, ← hb', ha0u]
          · exact ⟨a0, List.mem_map.mpr ⟨a0, ha0, by rw [if_neg hb]⟩, ha0u⟩
        · rw [if_neg hts]
          exact ⟨a0, ha0, ha0u⟩
    · unfold latestStep
      cases hf : acc.find? (fun a => a.userId == p.userId) with
      | none =>
        dsimp only
        intro a ha hau
        rcases List.mem_append.mp ha with ha' | ha'
        · exact hlb a ha' hau
        · have ha'' := List.mem_singleton.mp ha'
          rw [ha''] at hau
          have hpu : p.userId = u := hau
          have hcontra := List.find?_eq_none.mp hf a0 ha0
          exact absurd (by simp [ha0u, hpu]) hcontra
      | some e0 =>
        have he0 : e0 ∈ acc := List.mem_of_find?_eq_some hf
        have he0u : e0.userId = p.userId := by simpa using List.find?_some hf
        dsimp only
        by_cases hts : p.timestamp > e0.timestamp
        · rw [if_pos hts]
          intro a ha hau
          obtain ⟨b, hb, rfl⟩ := List.mem_map.mp ha
          by_cases hbu : (b.userId == p.userId) = true
          · rw [if_pos hbu] at hau ⊢
            have hpu : p.userId = u := hau
            have ht0 : t ≤ e0.timestamp := hlb e0 he0 (by rw [he0u, hpu])
            exact le_trans ht0 (le_of_lt hts)
          · rw [if_neg hbu] at hau ⊢
            exact hlb b hb hau
        · rw [if_neg hts]
          exact hlb

/-- Helper: the final entry carrying a sample's userId has a timestamp at
least that sample's. -/
theorem reduce_dominates (ps : List PositionSample) (q : PositionSample) :
    ∀ acc : List RunnerPosEntry, (acc.map (fun a => a.userId)).Nodup →
      q ∈ ps →
      ∀ a ∈ ps.foldl latestStep acc, a.userId = q.userId →
        q.timestamp ≤ a.timestamp := by
  induction ps with
  | nil => intro acc _ hq; cases hq
  | cons p ps ih =>
    intro acc hnd hq
    rw [List.foldl_cons]
    have hnd' : ((latestStep acc p).map (fun a => a.userId)).Nodup := by
      rw [latestStep_map_userId]
      split_ifs with hmem
      · exact hnd
      · simp [List.nodup_append, hnd, hmem]
    rcases List.mem_cons.mp hq with rfl | hq'
    · obtain ⟨hpres, hdom⟩ := latestStep_dominates acc hnd q
      exact (foldl_lower_bound ps (latestStep acc q) q.userId q.timestamp
        hpres hdom).2
    · exact ih (latestStep acc p) hnd' hq'

/-- C6 counterexample: `u1`'s only sample sits exactly on the boundary
`timestamp = now - 300`, so it satisfies the claim's
`timestamp >= now - freshnessWindow`; yet the code's filter is the strict
`timestamp gt`, and the result is empty — `u1` is missing. -/
theorem freshness_boundary_excluded :
    boundaryStore.positions =
      [⟨"e1", "u1_0", "u1", 1, 2, none, 0, 0, 0, 0, 0⟩] ∧
    (0 : Int) ≥ 300 - 300 ∧
    getEventRunnersPositions "e1" none 300 boundaryStore = ⟨200, .arr []⟩ :=
  ⟨rfl, by decide, rfl⟩

/-- C6 (amended): `getEventRunnersPositions` keeps the samples of the event
with `timestamp` *strictly* greater than `now - 300` (the window is a
hard-coded five minutes) and reduces them to exactly one entry per userId —
an entry built verbatim from one of that user's in-window samples whose
timestamp no in-window sample of the same user exceeds; users whose samples
all fall outside the strict window are absent. -/
theorem getLatestPositions_spec (e : String) (now : Int) (s : Store)
    (he : e ≠ "") :
    getEventRunnersPositions e none now s =
      ⟨200, .arr ((reduceLatest (freshSamples s e now)).map entryToJson)⟩ ∧
    (∀ p, p ∈ freshSamples s e now ↔
      p ∈ s.positions ∧ p.eventId = e ∧ p.timestamp > now - 300) ∧
    ((reduceLatest (freshSamples s e now)).map (fun a => a.userId)).Nodup ∧
    (∀ u, (∃ a ∈ reduceLatest (freshSamples s e now), a.userId = u) ↔
      ∃ p ∈ s.positions,
        p.eventId = e ∧ p.timestamp > now - 300 ∧ p.userId = u) ∧
    (∀ a ∈ reduceLatest (freshSamples s e now),
      (∃ p ∈ freshSamples s e now, p.userId = a.userId ∧ a = mkEntry p) ∧
      ∀ q ∈ freshSamples s e now, q.userId = a.userId →
        q.timestamp ≤ a.timestamp) := by
  have hfresh : ∀ p, p ∈ freshSamples s e now ↔
      p ∈ s.positions ∧ p.eventId = e ∧ p.timestamp > now - 300 := by
    intro p
    simp [freshSamples, List.mem_filter, and_assoc]
  refine ⟨by simp [getEventRunnersPositions, he], hfresh, ?_, ?_, ?_⟩
  · exact reduce_keys_nodup _ [] (by simp)
  · intro u
    have hk := mem_keys_reduce (freshSamples s e now) [] u
    simp only [List.map_nil, List.not_mem_nil, false_or] at hk
    constructor
    · rintro ⟨a, ha, hau⟩
      have : u ∈ (reduceLatest (freshSamples s e now)).map
          (fun a => a.userId) := List.mem_map.mpr ⟨a, ha, hau⟩
      obtain ⟨p, hp, hpu⟩ := hk.mp this
      obtain ⟨hp1, hp2, hp3⟩ := (hfresh p).mp hp
      exact ⟨p, hp1, hp2, hp3, hpu⟩
    · rintro ⟨p, hp1, hp2, hp3, hpu⟩
      have hp : p ∈ freshSamples s e now := (hfresh p).mpr ⟨hp1, hp2, hp3⟩
      have : u ∈ (reduceLatest (freshSamples s e now)).map
          (fun a => a.userId) := hk.mpr ⟨p, hp, hpu⟩
      obtain ⟨a, ha, hau⟩ := List.mem_map.mp this
      exact ⟨a, ha, hau⟩
  · intro a ha
    constructor
    · rcases reduce_source (freshSamples s e now) [] ha with h | ⟨p, hp, hpu, hx⟩
      · cases h
      · exact ⟨p, hp, hpu, hx⟩
    · intro q hq hqu
      exact reduce_dominates (freshSamples s e now) q [] (by simp) hq a ha
        hqu.symm

/-- C6 witness: at `now = 500` (window cut-off 200), `u1`'s samples at 480
and 490 reduce to the single 490 entry and `u2`'s lone sample at 100 is
stale, so `u2` is absent. -/
theorem getLatestPositions_spec_witness :
    (("e1" : String) ≠ "") ∧
    reduceLatest (freshSamples freshStore "e1" 500) =
      [⟨"u1", 3, 4, 0, 0, 0, 0, 490⟩] ∧
    getEventRunnersPositions "e1" none 500 freshStore =
      ⟨200, .arr [entryToJson ⟨"u1", 3, 4, 0, 0, 0, 0, 490⟩]⟩ ∧
    (∀ u, (∃ a ∈ reduceLatest (freshSamples freshStore "e1" 500),
        a.userId = u) ↔
      ∃ p ∈ freshStore.positions,
        p.eventId = "e1" ∧ p.timestamp > 500 - 300 ∧ p.userId = u) := by
  refine ⟨by decide, rfl, rfl, ?_⟩
  exact (getLatestPositions_spec "e1" 500 freshStore (by decide)).2.2.2.1
